import Mathlib

/-!
Verification of the gallery-dl support-layer specification against the
extractor sources.  Each Python function relevant to a claim is shallowly
embedded as an executable Lean definition; network interaction is modelled
by an explicit backend function passed as an argument, and generator loops
are modelled with an explicit fuel argument (the Python generators are lazy
and potentially infinite; every theorem below shows that the result is
independent of any sufficiently large fuel).
-/

/-! ## Offset pagination (moebooru.py, derpibooru.py)

`MoebooruExtractor._pagination` (moebooru.py lines 41-51):
sets `params["page"] = self.page_start` (1) and `params["limit"] = self.per_page`,
then loops: fetch the page, yield all posts, stop when the page is shorter than
`per_page`, else increment the page number.

The trace returned below is the list of fetched pages, in fetch order; the
items yielded by the generator are the concatenation of the trace.
-/

def moebooru_pagination {α : Type} (fetch : Nat → List α) (perPage : Nat) :
    Nat → Nat → List (List α)
  | 0, _ => []
  | fuel + 1, page =>
    if (fetch page).length < perPage then [fetch page]
    else fetch page :: moebooru_pagination fetch perPage fuel (page + 1)

/-- `DerpibooruExtractor._pagination` (derpibooru.py lines 38-54): identical
loop shape, starting at page 1, items taken from `data["images"]`. -/
def derpibooru_pagination {α : Type} (fetch : Nat → List α) (perPage : Nat) :
    Nat → Nat → List (List α)
  | 0, _ => []
  | fuel + 1, page =>
    if (fetch page).length < perPage then [fetch page]
    else fetch page :: derpibooru_pagination fetch perPage fuel (page + 1)

lemma moebooru_pagination_length_pos {α : Type} (fetch : Nat → List α)
    (perPage fuel page : Nat) :
    1 ≤ (moebooru_pagination fetch perPage (fuel + 1) page).length := by
  rw [moebooru_pagination]
  split <;> simp

lemma derpibooru_pagination_length_pos {α : Type} (fetch : Nat → List α)
    (perPage fuel page : Nat) :
    1 ≤ (derpibooru_pagination fetch perPage (fuel + 1) page).length := by
  rw [derpibooru_pagination]
  split <;> simp

/-- C1: an offset-paginated enumeration over a backend whose pages 1..4 have
sizes [P, P, P, k] with k < P yields exactly the four pages in page order
(hence 3P+k items) with exactly 4 fetches, independently of remaining fuel;
and in general the loop requests a further page iff the page just received
contained at least `per_page` items. Both `MoebooruExtractor._pagination`
and `DerpibooruExtractor._pagination` are covered. -/
theorem offset_pagination_short_page_stops {α : Type}
    (fetch fetchD : Nat → List α) (P k : Nat) (hk : k < P)
    (h1 : (fetch 1).length = P) (h2 : (fetch 2).length = P)
    (h3 : (fetch 3).length = P) (h4 : (fetch 4).length = k)
    (g1 : (fetchD 1).length = P) (g2 : (fetchD 2).length = P)
    (g3 : (fetchD 3).length = P) (g4 : (fetchD 4).length = k) :
    (∀ fuel, moebooru_pagination fetch P (fuel + 4) 1
        = [fetch 1, fetch 2, fetch 3, fetch 4]) ∧
    (∀ fuel, ((moebooru_pagination fetch P (fuel + 4) 1).flatten).length
        = 3 * P + k) ∧
    (∀ fuel, derpibooru_pagination fetchD P (fuel + 4) 1
        = [fetchD 1, fetchD 2, fetchD 3, fetchD 4]) ∧
    (∀ fuel, ((derpibooru_pagination fetchD P (fuel + 4) 1).flatten).length
        = 3 * P + k) ∧
    (∀ (g : Nat → List α) f p, 2 ≤ (moebooru_pagination g P (f + 2) p).length
        ↔ P ≤ (g p).length) ∧
    (∀ (g : Nat → List α) f p, 2 ≤ (derpibooru_pagination g P (f + 2) p).length
        ↔ P ≤ (g p).length) := by
  have hm : ∀ fuel, moebooru_pagination fetch P (fuel + 4) 1
      = [fetch 1, fetch 2, fetch 3, fetch 4] := by
    intro fuel
    show moebooru_pagination fetch P (fuel + 3 + 1) 1 = _
    rw [moebooru_pagination, h1]
    show (if P < P then _ else _ :: moebooru_pagination fetch P (fuel + 2 + 1) 2) = _
    rw [moebooru_pagination, h2]
    show (if P < P then _
      else _ :: if P < P then _
      else _ :: moebooru_pagination fetch P (fuel + 1 + 1) 3) = _
    rw [moebooru_pagination, h3, moebooru_pagination, h4]
    simp [hk, Nat.lt_irrefl]
  have hd : ∀ fuel, derpibooru_pagination fetchD P (fuel + 4) 1
      = [fetchD 1, fetchD 2, fetchD 3, fetchD 4] := by
    intro fuel
    show derpibooru_pagination fetchD P (fuel + 3 + 1) 1 = _
    rw [derpibooru_pagination, g1]
    show (if P < P then _ else _ :: derpibooru_pagination fetchD P (fuel + 2 + 1) 2) = _
    rw [derpibooru_pagination, g2]
    show (if P < P then _
      else _ :: if P < P then _
      else _ :: derpibooru_pagination fetchD P (fuel + 1 + 1) 3) = _
    rw [derpibooru_pagination, g3, derpibooru_pagination, g4]
    simp [hk, Nat.lt_irrefl]
  refine ⟨hm, ?_, hd, ?_, ?_, ?_⟩
  · intro fuel
    rw [hm fuel]
    simp [h1, h2, h3, h4]
    ring
  · intro fuel
    rw [hd fuel]
    simp [g1, g2, g3, g4]
    ring
  · intro g f p
    show 2 ≤ (moebooru_pagination g P (f + 1 + 1) p).length ↔ _
    rw [moebooru_pagination]
    rcases Nat.lt_or_ge (g p).length P with h | h
    · simp [h, Nat.not_le.mpr h]
    · have := moebooru_pagination_length_pos g P f (p + 1)
      simp [Nat.not_lt.mpr h, h]
      omega
  · intro g f p
    show 2 ≤ (derpibooru_pagination g P (f + 1 + 1) p).length ↔ _
    rw [derpibooru_pagination]
    rcases Nat.lt_or_ge (g p).length P with h | h
    · simp [h, Nat.not_le.mpr h]
    · have := derpibooru_pagination_length_pos g P f (p + 1)
      simp [Nat.not_lt.mpr h, h]
      omega

/-- Mock backend for the C1 witness: pages 1-3 have two items, page 4 one. -/
def c1fetch : Nat → List Nat := fun p => if p ≤ 3 then [0, 0] else [0]

theorem offset_pagination_short_page_stops_witness :
    moebooru_pagination c1fetch 2 (0 + 4) 1 = [[0, 0], [0, 0], [0, 0], [0]] :=
  (offset_pagination_short_page_stops c1fetch c1fetch 2 1
    (by decide) (by decide) (by decide) (by decide) (by decide)
    (by decide) (by decide) (by decide) (by decide)).1 0

/-! ## Cursor/token pagination (sankaku.py, twitter.py)

`SankakuAPI._pagination` (sankaku.py lines 251-261): fetch a page, yield all
of `data["data"]`, set `params["next"] = data["meta"]["next"]`, return when
that token is falsy (null or the empty string), else fetch again with it.
The trace records, for each fetch, the token it was issued with and the items
it yielded. -/

structure SankakuPage (α : Type) where
  data : List α
  next : Option String

def sankaku_pagination {α : Type} (call : Option String → SankakuPage α) :
    Nat → Option String → List (Option String × List α)
  | 0, _ => []
  | fuel + 1, tok =>
    let d := call tok
    match d.next with
    | none => [(tok, d.data)]
    | some t =>
      if t = "" then [(tok, d.data)]
      else (tok, d.data) :: sankaku_pagination call fuel (some t)

/-! `TwitterAPI._pagination` (twitter.py lines 646-723).  A response is
modelled by its `timeline.instructions` list and the `globalObjects.tweets`
id-to-tweet mapping; an entry of `instructions[0]["addEntries"]["entries"]`
is a tweet entry, a `homeConversation` entry (ids appended reversed), a
bottom cursor, or anything else.  The metadata enrichment performed on each
yielded tweet (attaching `user`/`author` objects) is not modelled; the
yielded tweet values themselves, their order, and the cursor handling are. -/

structure TwCursorE where
  value : String
  stopOnEmptyResponse : Bool
deriving DecidableEq

inductive TwEntry where
  | tweet (id : String)
  | conversation (ids : List String)
  | cursorBottom (c : TwCursorE)
  | other
deriving DecidableEq

structure TwInstr where
  pinEntry : Option String
  addEntries : List TwEntry
  replaceEntry : Option String
deriving DecidableEq

structure TwTweet where
  id_str : String
  retweeted_status_id_str : Option String
  quoted_status_id_str : Option String
deriving DecidableEq

structure TwData where
  instructions : List TwInstr
  tweets : List (String × TwTweet)
deriving DecidableEq

structure TwScan where
  ids : List String
  cursor : Option String
  tweet : Bool
deriving DecidableEq

/-- The entry loop of `TwitterAPI._pagination` (twitter.py lines 669-686):
collects tweet ids in order, remembers the last bottom-cursor value, and
sets the `tweet` flag when a cursor lacks `stopOnEmptyResponse`. -/
def twScanEntries (s : TwScan) : List TwEntry → TwScan
  | [] => s
  | TwEntry.tweet id :: r => twScanEntries { s with ids := s.ids ++ [id] } r
  | TwEntry.conversation ids :: r =>
      twScanEntries { s with ids := s.ids ++ ids.reverse } r
  | TwEntry.cursorBottom c :: r =>
      twScanEntries { s with cursor := some c.value,
                             tweet := s.tweet || !c.stopOnEmptyResponse } r
  | TwEntry.other :: r => twScanEntries s r

/-- The tweet-processing loop of `TwitterAPI._pagination` (twitter.py lines
688-711): ids absent from the tweets map are skipped; retweets are replaced
by (or, when missing, dropped for) their original when `retweets ==
"original"`; a quoted tweet found in the map is yielded right after its
quoter.  The boolean records whether any id resolved in the map (the `tweet`
variable becoming truthy). -/
def twProcess (orig : Bool) (m : List (String × TwTweet)) :
    List String → List TwTweet × Bool
  | [] => ([], false)
  | id :: r =>
    match List.lookup id m with
    | none => twProcess orig m r
    | some tw =>
      let rest := twProcess orig m r
      let yielded : Option TwTweet :=
        match tw.retweeted_status_id_str with
        | some rid =>
          match List.lookup rid m with
          | some rt => if orig then some rt else some tw
          | none => if orig then none else some tw
        | none => some tw
      match yielded with
      | none => (rest.1, true)
      | some t2 =>
        let quoted : List TwTweet :=
          match t2.quoted_status_id_str with
          | some qid =>
            match List.lookup qid m with
            | some q => [q]
            | none => []
          | none => []
        (t2 :: quoted ++ rest.1, true)

/-- Python falsiness of the cursor value (`if not cursor`). -/
def twFalsy : Option String → Bool
  | none => true
  | some v => v = ""

def twitter_pagination (orig : Bool) (call : Option String → TwData) :
    Nat → Bool → Option String → List (Option String × List TwTweet)
  | 0, _, _ => []
  | fuel + 1, pinned, cur =>
    let d := call cur
    if d.instructions.isEmpty then [(cur, [])]
    else
      let pinIds :=
        if pinned then
          match d.instructions.getLast?.bind TwInstr.pinEntry with
          | some id => [id]
          | none => []
        else []
      let s := twScanEntries ⟨pinIds, none, false⟩
          ((d.instructions.head?.map TwInstr.addEntries).getD [])
      let pr := twProcess orig d.tweets s.ids
      let cursor :=
        match d.instructions.getLast?.bind TwInstr.replaceEntry with
        | some v => some v
        | none => s.cursor
      if twFalsy cursor || !(s.tweet || pr.2) then [(cur, pr.1)]
      else (cur, pr.1) :: twitter_pagination orig call fuel false cursor

/-- A single-tweet page for the C2 scenario: one tweet entry with the given
id, followed by a bottom cursor when a continuation token is supplied. -/
def twPage (id : String) (next : Option String) : TwData :=
  { instructions :=
      [{ pinEntry := none
         addEntries :=
           TwEntry.tweet id ::
             (match next with
              | some t => [TwEntry.cursorBottom ⟨t, true⟩]
              | none => [])
         replaceEntry := none }]
    tweets := [(id, ⟨id, none, none⟩)] }

lemma twitter_pagination_twPage_cons (call : Option String → TwData)
    (fuel : Nat) (pinned : Bool) (cur : Option String) (id t : String)
    (ht : t ≠ "") (h : call cur = twPage id (some t)) :
    twitter_pagination false call (fuel + 1) pinned cur
      = (cur, [⟨id, none, none⟩]) ::
          twitter_pagination false call fuel false (some t) := by
  rw [twitter_pagination, h]
  simp [twPage, twScanEntries, twProcess, twFalsy, ht]

lemma twitter_pagination_twPage_last (call : Option String → TwData)
    (fuel : Nat) (pinned : Bool) (cur : Option String) (id : String)
    (h : call cur = twPage id none) :
    twitter_pagination false call (fuel + 1) pinned cur
      = [(cur, [⟨id, none, none⟩])] := by
  rw [twitter_pagination, h]
  simp [twPage, twScanEntries, twProcess, twFalsy]

/-- C2: cursor/token pagination is forward-only.  For both
`SankakuAPI._pagination` and `TwitterAPI._pagination`, over a backend whose
pages carry tokens t1, t2 and then a null token, the pages are visited in
exactly that order with exactly 3 fetches, each fetch after the first is
issued with exactly the token the previous response returned, the tokens
requested are pairwise distinct (no token re-fetched), and — as the last
conjunct states for every backend — the loop yields each page's items in
the order received and terminates as soon as the returned token is
absent/null/falsy. -/
theorem cursor_pagination_forward_only
    (callS : Option String → SankakuPage Nat)
    (callT : Option String → TwData)
    (i0 i1 i2 : List Nat) (t1 t2 : String)
    (ht1 : t1 ≠ "") (ht2 : t2 ≠ "") (hne : t1 ≠ t2)
    (hs0 : callS none = ⟨i0, some t1⟩)
    (hs1 : callS (some t1) = ⟨i1, some t2⟩)
    (hs2 : callS (some t2) = ⟨i2, none⟩)
    (hw0 : callT none = twPage ("a") (some t1))
    (hw1 : callT (some t1) = twPage ("b") (some t2))
    (hw2 : callT (some t2) = twPage ("c") none) :
    (∀ fuel, sankaku_pagination callS (fuel + 3) none
        = [(none, i0), (some t1, i1), (some t2, i2)]) ∧
    (∀ fuel, twitter_pagination false callT (fuel + 3) true none
        = [(none, [⟨"a", none, none⟩]), (some t1, [⟨"b", none, none⟩]),
           (some t2, [⟨"c", none, none⟩])]) ∧
    ([none, some t1, some t2] : List (Option String)).Pairwise (· ≠ ·) ∧
    (∀ (call : Option String → SankakuPage Nat) fuel tok,
      sankaku_pagination call (fuel + 1) tok =
        (tok, (call tok).data) ::
          (match (call tok).next with
           | none => []
           | some t =>
             if t = "" then [] else sankaku_pagination call fuel (some t))) := by
  refine ⟨?_, ?_, ?_, ?_⟩
  · intro fuel
    show sankaku_pagination callS (fuel + 2 + 1) none = _
    rw [sankaku_pagination, hs0]
    show (if t1 = "" then _ else _ :: sankaku_pagination callS (fuel + 1 + 1) (some t1)) = _
    rw [sankaku_pagination, hs1]
    show (if t1 = "" then _
      else _ :: if t2 = "" then _
      else _ :: sankaku_pagination callS (fuel + 0 + 1) (some t2)) = _
    rw [sankaku_pagination, hs2]
    simp [ht1, ht2]
  · intro fuel
    show twitter_pagination false callT (fuel + 2 + 1) true none = _
    rw [twitter_pagination_twPage_cons callT (fuel + 2) true none ("a") t1 ht1 hw0,
      twitter_pagination_twPage_cons callT (fuel + 1) false (some t1) ("b") t2 ht2 hw1,
      twitter_pagination_twPage_last callT fuel false (some t2) ("c") hw2]
  · simp [List.pairwise_cons, hne]
  · intro call fuel tok
    cases h : (call tok).next with
    | none => simp [sankaku_pagination, h]
    | some t =>
      by_cases ht : t = "" <;> simp [sankaku_pagination, h, ht]

/-- Mock cursor backends for the C2 witness. -/
def c2callS : Option String → SankakuPage Nat := fun tok =>
  match tok with
  | none => ⟨[1, 2], some ("t1")⟩
  | some ("t1") => ⟨[3], some ("t2")⟩
  | some ("t2") => ⟨[4], none⟩
  | some _ => ⟨[], none⟩

def c2callT : Option String → TwData := fun tok =>
  match tok with
  | none => twPage ("a") (some ("t1"))
  | some ("t1") => twPage ("b") (some ("t2"))
  | some ("t2") => twPage ("c") none
  | some _ => twPage ("z") none

theorem cursor_pagination_forward_only_witness :
    sankaku_pagination c2callS (0 + 3) none
      = [(none, [1, 2]), (some ("t1"), [3]), (some ("t2"), [4])] :=
  (cursor_pagination_forward_only c2callS c2callT [1, 2] [3] [4] "t1" "t2"
    (by decide) (by decide) (by decide) rfl rfl rfl rfl rfl rfl).1 0

/-! ## Byte-range pagination (nozomi.py)

`decode_nozomi` (nozomi.py lines 15-17): every 4 bytes form one big-endian
identifier.  (The Python version raises `IndexError` on a trailing partial
group; the definition below is applied only to contents whose length is a
multiple of 4, as the length hypotheses in the theorems require.)

`NozomiTagExtractor.posts` (nozomi.py lines 149-161): starting at offset 0,
request `Range: bytes=i-(i+255)`, yield the decoded chunk, advance `i` by
256, read the total size from the `Content-Range` header and stop once it is
`<= i`.  The trace below records each request's starting offset with the
chunk it returned; the backend is the chunk contents plus the reported total
size `T`. -/

def decode_nozomi : List Nat → List Nat
  | a :: b :: c :: d :: rest =>
      ((a <<< 24) + (b <<< 16) + (c <<< 8) + d) :: decode_nozomi rest
  | _ => []

def nozomi_tag_posts (content : Nat → List Nat) (T : Nat) (i : Nat) :
    List (Nat × List Nat) :=
  if T ≤ i + 256 then [(i, content i)]
  else (i, content i) :: nozomi_tag_posts content T (i + 256)
termination_by T - i
decreasing_by omega

/-- The identifiers yielded by `NozomiTagExtractor.posts`: every fetched
chunk is decoded and all results are yielded, in fetch order. -/
def nozomi_tag_items (content : Nat → List Nat) (T : Nat) : List Nat :=
  ((nozomi_tag_posts content T 0).map (fun p => decode_nozomi p.2)).flatten

lemma nozomi_tag_posts_length (content : Nat → List Nat) (T : Nat) :
    ∀ n i, T - i ≤ n → i < T →
      (nozomi_tag_posts content T i).length = (T - i + 255) / 256 := by
  intro n
  induction n with
  | zero => intro i h1 h2; omega
  | succ n ih =>
    intro i h1 h2
    rw [nozomi_tag_posts]
    by_cases h : T ≤ i + 256
    · simp only [if_pos h, List.length_singleton]
      omega
    · simp only [if_neg h, List.length_cons]
      rw [ih (i + 256) (by omega) (by omega)]
      omega

lemma nozomi_tag_posts_offsets (content : Nat → List Nat) (T : Nat) :
    ∀ n i, T - i ≤ n → i < T →
      (nozomi_tag_posts content T i).map Prod.fst
        = (List.range ((T - i + 255) / 256)).map (fun j => i + j * 256) := by
  intro n
  induction n with
  | zero => intro i h1 h2; omega
  | succ n ih =>
    intro i h1 h2
    rw [nozomi_tag_posts]
    by_cases h : T ≤ i + 256
    · have hc : (T - i + 255) / 256 = 1 := by omega
      rw [if_pos h, hc]
      show [(i, content i)].map Prod.fst = [0].map (fun j => i + j * 256)
      simp
    · have hc : (T - i + 255) / 256 = (T - (i + 256) + 255) / 256 + 1 := by omega
      simp only [if_neg h, List.map_cons]
      rw [ih (i + 256) (by omega) (by omega), hc, List.range_succ_eq_map]
      simp [List.map_map, Function.comp]
      intro a _
      ring

lemma decode_nozomi_length : ∀ l : List Nat, l.length % 4 = 0 →
    (decode_nozomi l).length = l.length / 4
  | [], _ => by simp [decode_nozomi]
  | [a], h => by simp at h
  | [a, b], h => by simp at h
  | [a, b, c], h => by simp at h
  | a :: b :: c :: d :: rest, h => by
    have h4 : rest.length % 4 = 0 := by
      simp only [List.length_cons] at h
      omega
    have ih := decode_nozomi_length rest h4
    simp only [decode_nozomi, List.length_cons, ih]
    omega

/-- C3: the byte-range enumeration of `NozomiTagExtractor.posts` over a
resource of reported total size `T > 0` issues its requests at offsets
0, 256, 512, ... (a fixed 256-byte chunk each), stops as soon as the
advanced position reaches or exceeds `T` — hence exactly `ceil(T/256)`
requests — and yields the identifiers decoded from every fetched chunk,
one identifier per 4 bytes via `decode_nozomi`. -/
theorem byte_range_pagination_requests (content : Nat → List Nat) (T : Nat)
    (hT : 0 < T) :
    (nozomi_tag_posts content T 0).length = (T + 255) / 256 ∧
    (nozomi_tag_posts content T 0).map Prod.fst
      = (List.range ((T + 255) / 256)).map (fun j => j * 256) ∧
    nozomi_tag_items content T
      = ((nozomi_tag_posts content T 0).map (fun p => decode_nozomi p.2)).flatten ∧
    (∀ l : List Nat, l.length % 4 = 0 →
      (decode_nozomi l).length = l.length / 4) ∧
    (∀ a b c d rest, decode_nozomi (a :: b :: c :: d :: rest)
      = ((a <<< 24) + (b <<< 16) + (c <<< 8) + d) :: decode_nozomi rest) := by
  refine ⟨?_, ?_, rfl, decode_nozomi_length, fun a b c d rest => rfl⟩
  · have := nozomi_tag_posts_length content T T 0 (by omega) hT
    simpa using this
  · have := nozomi_tag_posts_offsets content T T 0 (by omega) hT
    simpa using this

theorem byte_range_pagination_requests_witness :
    (nozomi_tag_posts (fun _ => [1, 2, 3, 4]) 1000 0).length = (1000 + 255) / 256 :=
  (byte_range_pagination_requests (fun _ => [1, 2, 3, 4]) 1000 (by decide)).1

/-! ## Set-algebra search (nozomi.py)

`NozomiSearchExtractor.posts` (nozomi.py lines 181-202): each tag resolves to
a set of identifiers (`decode_nozomi` over a fetched `.nozomi` file, modelled
here as `fetch : String → Finset Nat` over the request path); a tag starting
with `-` resolves to the global index set minus its fetched set, fetching the
index first if it has not been fetched yet (or was empty: `if not index`);
the accumulated result is intersected with the term's set when non-empty and
unioned with it when empty (`if result: ... else: ...`).  The final result is
sorted descending.  The state also records the trace of fetched paths. -/

structure NzSearchState where
  index : Option (Finset Nat)
  result : Finset Nat
  fetched : List String

/-- Python falsiness of the `index` variable (`if not index`): `None` or the
empty set. -/
def nzIndexFalsy : Option (Finset Nat) → Bool
  | none => true
  | some s => s = ∅

def nozomi_search_go (fetch : String → Finset Nat) :
    NzSearchState → List String → NzSearchState
  | st, [] => st
  | st, tag :: rest =>
    let step : NzSearchState :=
      if tag.front = '-' then
        let index :=
          if nzIndexFalsy st.index then some (fetch ("index")) else st.index
        let fetched :=
          if nzIndexFalsy st.index then st.fetched ++ ["index"] else st.fetched
        let items := index.getD ∅ \ fetch ("nozomi/" ++ tag.drop 1)
        { index := index
          result := if st.result = ∅ then st.result ∪ items
                    else st.result ∩ items
          fetched := fetched ++ ["nozomi/" ++ tag.drop 1] }
      else
        let items := fetch ("nozomi/" ++ tag)
        { index := st.index
          result := if st.result = ∅ then st.result ∪ items
                    else st.result ∩ items
          fetched := st.fetched ++ ["nozomi/" ++ tag] }
    nozomi_search_go fetch step rest

/-- `sorted(result, reverse=True)`: the combined identifier set in
descending order. -/
def nozomi_search_posts (fetch : String → Finset Nat) (tags : List String) :
    List Nat :=
  ((nozomi_search_go fetch ⟨none, ∅, []⟩ tags).result.sort (· ≤ ·)).reverse

def nozomi_search_trace (fetch : String → Finset Nat) (tags : List String) :
    List String :=
  (nozomi_search_go fetch ⟨none, ∅, []⟩ tags).fetched

/-- The combination rule exactly as the spec words it (for comparison with
`nozomi_search_go`): contributions are combined by intersection, except that
the first term seeds the result set via union. -/
def nozomi_search_spec_combine (sets : List (Finset Nat)) : Finset Nat :=
  match sets with
  | [] => ∅
  | s :: rest => rest.foldl (· ∩ ·) s

def nozomi_search_spec_posts (fetch : String → Finset Nat)
    (tags : List String) : List Nat :=
  ((nozomi_search_spec_combine (tags.map (fun tag =>
      if tag.front = '-' then
        fetch ("index") \ fetch ("nozomi/" ++ tag.drop 1)
      else fetch ("nozomi/" ++ tag)))).sort (· ≤ ·)).reverse

/-- Backend refuting C4 as stated: term `a` resolves to the empty set,
term `b` to `{5}`. -/
def c4fetch : String → Finset Nat :=
  fun s => if s = "nozomi/b" then {5} else ∅

/-- C4 counterexample: on the term list `["a", "b"]` with `a ↦ ∅`, `b ↦ {5}`,
the code returns `[5]` — the second term also seeds via union because the
accumulated result is still empty — whereas the claimed rule (intersection
for every term after the first) returns `[]`. -/
theorem set_algebra_seed_union_counterexample :
    nozomi_search_posts c4fetch ["a", "b"] = [5] ∧
    nozomi_search_spec_posts c4fetch ["a", "b"] = [] ∧
    nozomi_search_posts c4fetch ["a", "b"]
      ≠ nozomi_search_spec_posts c4fetch ["a", "b"] := by
  have h1 : (nozomi_search_go c4fetch ⟨none, ∅, []⟩ ["a", "b"]).result
      = {5} := by decide
  have h2 : nozomi_search_spec_combine (["a", "b"].map (fun tag =>
      if tag.front = '-' then
        c4fetch ("index") \ c4fetch ("nozomi/" ++ tag.drop 1)
      else c4fetch ("nozomi/" ++ tag))) = ∅ := by decide
  have e1 : nozomi_search_posts c4fetch ["a", "b"] = [5] := by
    show ((nozomi_search_go c4fetch ⟨none, ∅, []⟩ ["a", "b"]).result.sort
      (· ≤ ·)).reverse = [5]
    rw [h1, Finset.sort_singleton]
    rfl
  have e2 : nozomi_search_spec_posts c4fetch ["a", "b"] = [] := by
    show ((nozomi_search_spec_combine _).sort (· ≤ ·)).reverse = []
    rw [h2, Finset.sort_empty]
    rfl
  refine ⟨e1, e2, ?_⟩
  rw [e1, e2]
  decide

/-- Backend for the amended C4 scenario: positive sets {1,2,3,5} and
{2,3,4}, negative term's set {3}, global index {1,2,3,4,5}. -/
def c4fetch2 : String → Finset Nat := fun s =>
  if s = "nozomi/p" then {1, 2, 3, 5}
  else if s = "nozomi/q" then {2, 3, 4}
  else if s = "nozomi/n" then {3}
  else if s = "index" then {1, 2, 3, 4, 5}
  else ∅

lemma nozomi_search_go_fetched_positive (fetch : String → Finset Nat) :
    ∀ (tags : List String) (st : NzSearchState),
      (∀ t ∈ tags, t.front ≠ '-') →
      (nozomi_search_go fetch st tags).fetched
        = st.fetched ++ tags.map (fun t => "nozomi/" ++ t) := by
  intro tags
  induction tags with
  | nil => intro st _; simp [nozomi_search_go]
  | cons t rest ih =>
    intro st h
    have ht : ¬(t.front = '-') := h t (List.mem_cons_self t rest)
    rw [nozomi_search_go]
    simp only [if_neg ht]
    rw [ih _ (fun x hx => h x (List.mem_cons_of_mem t hx))]
    simp

/-- C4 (amended): in `NozomiSearchExtractor.posts`, a positive term
contributes its fetched set and a negative term contributes the (freshly
fetched if needed) global index set minus its fetched set; a term is combined
by intersection when the accumulated result is non-empty, and seeds the
result via union when the accumulated result is empty — in particular the
first term; the result is returned in descending order; each positive term
causes exactly one fetch of its own identifier set (never per-item calls),
and the claim's concrete scenario {1,2,3,5} ∩ {2,3,4} minus {3} yields [2]
with each involved set fetched exactly once. -/
theorem set_algebra_strategy_amended :
    (∀ (fetch : String → Finset Nat) (tags : List String)
        (st : NzSearchState), (∀ t ∈ tags, t.front ≠ '-') →
      (nozomi_search_go fetch st tags).fetched
        = st.fetched ++ tags.map (fun t => "nozomi/" ++ t)) ∧
    (∀ (fetch : String → Finset Nat) (st : NzSearchState) (tag : String),
      (nozomi_search_go fetch st [tag]).result =
        (let items :=
          if tag.front = '-' then
            (if nzIndexFalsy st.index then fetch ("index") else st.index.getD ∅)
              \ fetch ("nozomi/" ++ tag.drop 1)
          else fetch ("nozomi/" ++ tag)
        if st.result = ∅ then st.result ∪ items else st.result ∩ items)) ∧
    nozomi_search_posts c4fetch2 ["p", "q", "-n"] = [2] ∧
    nozomi_search_trace c4fetch2 ["p", "q", "-n"]
      = ["nozomi/p", "nozomi/q", "index", "nozomi/n"] := by
  have h1 : (nozomi_search_go c4fetch2 ⟨none, ∅, []⟩ ["p", "q", "-n"]).result
      = {2} := by decide
  have e1 : nozomi_search_posts c4fetch2 ["p", "q", "-n"] = [2] := by
    show ((nozomi_search_go c4fetch2 ⟨none, ∅, []⟩ ["p", "q", "-n"]).result.sort
      (· ≤ ·)).reverse = [2]
    rw [h1, Finset.sort_singleton]
    rfl
  refine ⟨nozomi_search_go_fetched_positive, ?_, e1, by decide⟩
  intro fetch st tag
  by_cases ht : tag.front = '-' <;>
    by_cases hi : nzIndexFalsy st.index <;>
      simp [nozomi_search_go, ht, hi]

theorem set_algebra_strategy_amended_witness :
    nozomi_search_trace c4fetch2 ["p", "q"] = ["nozomi/p", "nozomi/q"] := by
  have h := set_algebra_strategy_amended.1 c4fetch2 ["p", "q"]
    ⟨none, ∅, []⟩ (by decide)
  simpa [nozomi_search_trace] using h

/-! ## TTL credential cache with invalidation -/

structure CacheEntry (α : Type) where
  value : α
  expires : Nat

/-- Cache state for one authentication function: the per-key entries plus a
counter of invocations of the underlying authentication function. -/
structure AuthCache (K α : Type) where
  entries : K → Option (CacheEntry α)
  calls : Nat

def cache_empty {K α : Type} : AuthCache K α := ⟨fun _ => none, 0⟩

/-- Modelled from the spec: the `@cache(maxage, keyarg)` decorator
(`gallery_dl/cache.py`) wrapping `_authenticate_impl` (sankaku.py line 264,
deviantart.py line 1012) is not among the sources; spec §4.3 defines
`get_or_authenticate(identity-key, authenticate-fn)`: a call within TTL
returns the cached value without invoking the function; the first call for a
key, or the first call after expiry, invokes it and stores the result with
expiry `now + ttl`, overwriting any previous entry.  The function receives
the invocation index, so distinct invocations may return distinct
credentials; `calls` counts them. -/
def cache_get_or_auth {K α : Type} [DecidableEq K] (fn : Nat → α)
    (ttl now : Nat) (key : K) (c : AuthCache K α) : α × AuthCache K α :=
  match c.entries key with
  | some e =>
    if now < e.expires then (e.value, c)
    else
      let v := fn c.calls
      (v, ⟨fun k => if k = key then some ⟨v, now + ttl⟩ else c.entries k,
           c.calls + 1⟩)
  | none =>
    let v := fn c.calls
    (v, ⟨fun k => if k = key then some ⟨v, now + ttl⟩ else c.entries k,
         c.calls + 1⟩)

/-- Modelled from the spec: `invalidate(identity-key)` clears the entry for
that key, as `SankakuAPI._call` does via
`_authenticate_impl.invalidate(self.username)` on an `invalid_token`
response (sankaku.py lines 244-247). -/
def cache_invalidate {K α : Type} [DecidableEq K] (key : K)
    (c : AuthCache K α) : AuthCache K α :=
  ⟨fun k => if k = key then none else c.entries k, c.calls⟩

/-- C5: TTL-cached authentication.  After a first call at `t0` (one
invocation), a call at `t1` within TTL returns the cached credential with no
further invocation and unchanged state; a call at `t2` at or past expiry
invokes the authentication function a second time and overwrites the entry
with expiry `t2 + ttl`; after `invalidate(key)` the next call invokes it a
third time. -/
theorem credential_cache_ttl {K α : Type} [DecidableEq K] (fn : Nat → α)
    (ttl t0 t1 t2 t3 : Nat) (key : K) (v1 v2 : α) (c1 c2 c3 : AuthCache K α)
    (hts : t1 < t0 + ttl) (hte : t0 + ttl ≤ t2)
    (h1 : cache_get_or_auth fn ttl t0 key cache_empty = (v1, c1))
    (h2 : cache_get_or_auth fn ttl t2 key c1 = (v2, c2))
    (h3 : c3 = cache_invalidate key c2) :
    v1 = fn 0 ∧ c1.calls = 1 ∧
    cache_get_or_auth fn ttl t1 key c1 = (v1, c1) ∧
    v2 = fn 1 ∧ c2.calls = 2 ∧
    c2.entries key = some ⟨fn 1, t2 + ttl⟩ ∧
    (cache_get_or_auth fn ttl t3 key c3).1 = fn 2 ∧
    (cache_get_or_auth fn ttl t3 key c3).2.calls = 3 := by
  have e1 : cache_get_or_auth fn ttl t0 key (cache_empty (K := K) (α := α))
      = (fn 0, ⟨fun k => if k = key then some ⟨fn 0, t0 + ttl⟩ else none,
                1⟩) := rfl
  rw [e1] at h1
  obtain ⟨hv1, hc1⟩ := Prod.mk.injEq .. ▸ h1
  have hc1e : c1.entries key = some ⟨fn 0, t0 + ttl⟩ := by
    rw [← hc1]; simp
  have hc1c : c1.calls = 1 := by rw [← hc1]
  have e2 : cache_get_or_auth fn ttl t2 key c1
      = (fn 1, ⟨fun k => if k = key then some ⟨fn 1, t2 + ttl⟩
                         else c1.entries k, 2⟩) := by
    unfold cache_get_or_auth
    rw [hc1e]
    simp [Nat.not_lt.mpr hte, hc1c]
  rw [e2] at h2
  obtain ⟨hv2, hc2⟩ := Prod.mk.injEq .. ▸ h2
  have hc2e : c2.entries key = some ⟨fn 1, t2 + ttl⟩ := by
    rw [← hc2]; simp
  have hc2c : c2.calls = 2 := by rw [← hc2]
  have hc3e : c3.entries key = none := by rw [h3, cache_invalidate]; simp
  have hc3c : c3.calls = 2 := by rw [h3]; exact hc2c
  have e3 : cache_get_or_auth fn ttl t3 key c3
      = (fn 2, ⟨fun k => if k = key then some ⟨fn 2, t3 + ttl⟩
                         else c3.entries k, 3⟩) := by
    unfold cache_get_or_auth
    rw [hc3e, hc3c]
  refine ⟨hv1.symm, hc1c, ?_, hv2.symm, hc2c, hc2e, by rw [e3], by rw [e3]⟩
  unfold cache_get_or_auth
  rw [hc1e]
  simp [hts, hv1]

theorem credential_cache_ttl_witness :
    (cache_get_or_auth (fun n => n) 10 0 (0 : Nat)
      (cache_invalidate 0
        (cache_get_or_auth (fun n => n) 10 10 0
          (cache_get_or_auth (fun n => n) 10 0 0
            (cache_empty (K := Nat) (α := Nat))).2).2)).2.calls = 3 :=
  (credential_cache_ttl (fun n => n) 10 0 5 10 0 0
    (cache_get_or_auth (fun n => n) 10 0 0 cache_empty).1
    (cache_get_or_auth (fun n => n) 10 10 0
      (cache_get_or_auth (fun n => n) 10 0 0 cache_empty).2).1
    (cache_get_or_auth (fun n => n) 10 0 0 cache_empty).2
    (cache_get_or_auth (fun n => n) 10 10 0
      (cache_get_or_auth (fun n => n) 10 0 0 cache_empty).2).2
    (cache_invalidate 0
      (cache_get_or_auth (fun n => n) 10 10 0
        (cache_get_or_auth (fun n => n) 10 0 0 cache_empty).2).2)
    (by decide) (by decide) rfl rfl rfl).2.2.2.2.2.2.2

/-! ## Adaptive request delay (deviantart.py)

`DeviantartOAuthAPI.__init__` (deviantart.py lines 886-887):
`self.delay = config("wait-min", 0)`, `self.delay_min = max(2, self.delay)`.
`DeviantartOAuthAPI._call` (lines 1050-1051 and 1062-1063): on a 2xx/3xx
response, `if self.delay > self.delay_min: self.delay -= 1`; on a 429
response, `if self.delay < 30: self.delay += 1`. -/

def dev_delay_min (waitMin : Nat) : Nat := max 2 waitMin

def dev_delay_throttle (delay : Nat) : Nat :=
  if delay < 30 then delay + 1 else delay

def dev_delay_success (delayMin delay : Nat) : Nat :=
  if delayMin < delay then delay - 1 else delay

/-- C7: the adaptive delay of `DeviantartOAuthAPI._call`.  Below the ceiling
(30) each throttling response increases the delay by exactly one step; three
consecutive throttling signals take it to `min (d+3) 30` — strictly
increasing up to the ceiling and no further; each ordinary success moves it
to `max floor (d-1)` — down one step, never below the floor
`max(2, wait-min)`; and both events preserve `floor ≤ delay ≤ 30`. -/
theorem rate_controller_delay_bounds (waitMin d : Nat)
    (hfl : dev_delay_min waitMin ≤ d) (hcl : d ≤ 30) :
    (d < 30 → dev_delay_throttle d = d + 1) ∧
    dev_delay_throttle (dev_delay_throttle (dev_delay_throttle d))
      = min (d + 3) 30 ∧
    dev_delay_success (dev_delay_min waitMin) d
      = max (dev_delay_min waitMin) (d - 1) ∧
    dev_delay_min waitMin ≤ dev_delay_throttle d ∧
    dev_delay_throttle d ≤ 30 ∧
    dev_delay_min waitMin ≤ dev_delay_success (dev_delay_min waitMin) d ∧
    dev_delay_success (dev_delay_min waitMin) d ≤ 30 := by
  unfold dev_delay_throttle dev_delay_success dev_delay_min at *
  refine ⟨?_, ?_, ?_, ?_, ?_, ?_, ?_⟩ <;> split_ifs <;> omega

theorem rate_controller_delay_bounds_witness :
    dev_delay_throttle 2 = 2 + 1 :=
  (rate_controller_delay_bounds 0 2 (by decide) (by decide)).1 (by decide)

/-! ## Throttling retry loops (sankaku.py, deviantart.py, twitter.py)

`SankakuAPI._call` (sankaku.py lines 226-249): `for _ in range(5)`:
authenticate, issue the request; on 429 wait and `continue`; on an
unsuccessful body with code `invalid_token` invalidate the cached credential
and `continue`; on any other unsuccessful body raise `StopExtraction`;
otherwise return the data.  Falling out of the loop returns `None`.
The result below carries the outcome and the number of requests issued. -/

inductive SkResp where
  | throttle
  | invalidToken
  | failure (code : String)
  | success (d : Nat)
deriving DecidableEq

inductive SkOut where
  | value (d : Nat)
  | nothing
  | raised (code : String)
deriving DecidableEq

def sankaku_call (resp : Nat → SkResp) : Nat → Nat → SkOut × Nat
  | 0, _ => (SkOut.nothing, 0)
  | n + 1, idx =>
    match resp idx with
    | SkResp.throttle =>
      let r := sankaku_call resp n (idx + 1)
      (r.1, r.2 + 1)
    | SkResp.invalidToken =>
      let r := sankaku_call resp n (idx + 1)
      (r.1, r.2 + 1)
    | SkResp.failure code => (SkOut.raised code, 1)
    | SkResp.success d => (SkOut.value d, 1)

/-- `DeviantartOAuthAPI._call` (deviantart.py lines 1039-1066): `while True`:
authenticate, issue the request; on 2xx/3xx return the data (decreasing the
delay); if `fatal` is false and the status is not 429, return `None`; if the
body says 'User not found.' raise `NotFoundError`; on 429 increase the delay
and loop; on any other error return the error body.  `none` as first
component means the loop was still running when the fuel ran out; the second
component counts requests issued. -/

inductive DevResp where
  | ok (d : Nat)
  | err (is429 : Bool) (userNF : Bool) (d : Nat)
deriving DecidableEq

inductive DevOut where
  | data (d : Nat)
  | nothing
  | notFound
  | errorData (d : Nat)
deriving DecidableEq

def deviantart_call (fatal : Bool) (resp : Nat → DevResp) :
    Nat → Nat → Nat → Option DevOut × Nat
  | 0, _, _ => (none, 0)
  | fuel + 1, idx, delay =>
    match resp idx with
    | DevResp.ok d => (some (DevOut.data d), 1)
    | DevResp.err is429 unf d =>
      if ¬fatal ∧ ¬is429 then (some DevOut.nothing, 1)
      else if unf then (some DevOut.notFound, 1)
      else if is429 then
        let r := deviantart_call fatal resp fuel (idx + 1)
          (dev_delay_throttle delay)
        (r.1, r.2 + 1)
      else (some (DevOut.errorData d), 1)

/-- `TwitterAPI._call` (twitter.py lines 619-634): issue the request at
`root + endpoint` where `root` defaults to `self.root`; on a status < 400
return the body; on 429 wait and recurse — note the recursive call
`self._call(endpoint, params, method)` passes `method` in the `root`
positional slot, so the retried request's root is the method string and the
retry's own method falls back to the default method; on any other status
raise `StopExtraction`.  The trace lists the root of every request issued;
`none` as outcome means the recursion was still retrying when the fuel ran
out, `some none` models the raise. -/

inductive TwResp where
  | ok (d : Nat)
  | throttle
  | err (status : Nat)
deriving DecidableEq

def twitter_call (selfRoot : String) (resp : Nat → TwResp) :
    Nat → Option String → String → Nat → List String × Option (Option Nat)
  | 0, _, _, _ => ([], none)
  | fuel + 1, root, method, idx =>
    let r := root.getD selfRoot
    match resp idx with
    | TwResp.ok d => ([r], some (some d))
    | TwResp.throttle =>
      let t := twitter_call selfRoot resp fuel (some method) "GET" (idx + 1)
      (r :: t.1, t.2)
    | TwResp.err _ => ([r], some none)

/-- C8 counterexample: `SankakuAPI._call` does not retry throttled requests
without bound.  On a backend answering 429 to every attempt, exactly 5
requests are issued and the call then abandons the request and returns
`None` — a request throttled 5 times in a row is not retried again,
refuting 'for every n, a request throttled n times in a row is still
retried'. -/
theorem throttle_retry_bounded_counterexample :
    sankaku_call (fun _ => SkResp.throttle) 5 0 = (SkOut.nothing, 5) := by
  decide

lemma sankaku_call_success_after_throttles (resp : Nat → SkResp) (d : Nat) :
    ∀ (n : Nat) (m idx : Nat),
      (∀ i, i < n → resp (idx + i) = SkResp.throttle) →
      resp (idx + n) = SkResp.success d → n < m →
      sankaku_call resp m idx = (SkOut.value d, n + 1) := by
  intro n
  induction n with
  | zero =>
    intro m idx _ hs hm
    obtain ⟨m', rfl⟩ := Nat.exists_eq_add_of_lt hm
    rw [sankaku_call]
    simp only [Nat.add_zero] at hs
    rw [hs]
  | succ n ih =>
    intro m idx hth hs hm
    obtain ⟨m', rfl⟩ := Nat.exists_eq_add_of_lt hm
    have h0 : resp idx = SkResp.throttle := by
      have := hth 0 (Nat.succ_pos n)
      simpa using this
    have hrest : ∀ i, i < n → resp (idx + 1 + i) = SkResp.throttle := by
      intro i hi
      have := hth (i + 1) (by omega)
      simpa [Nat.add_assoc, Nat.add_comm 1 i] using this
    have hs' : resp (idx + 1 + n) = SkResp.success d := by
      have : idx + 1 + n = idx + (n + 1) := by omega
      rw [this]; exact hs
    have step := ih (n + 1 + m') (idx + 1) hrest hs' (by omega)
    rw [sankaku_call, h0, step]

lemma deviantart_call_throttle_forever (resp : Nat → DevResp)
    (hth : ∀ i, resp i = DevResp.err true false 0) :
    ∀ fuel idx delay, deviantart_call true resp fuel idx delay
      = (none, fuel) := by
  intro fuel
  induction fuel with
  | zero => intro idx delay; rfl
  | succ n ih =>
    intro idx delay
    rw [deviantart_call, hth idx]
    simp [ih]

lemma twitter_call_throttle_forever (selfRoot : String) (resp : Nat → TwResp)
    (hth : ∀ i, resp i = TwResp.throttle) :
    ∀ fuel idx, twitter_call selfRoot resp fuel (some ("GET")) ("GET") idx
      = (List.replicate fuel ("GET"), none) := by
  intro fuel
  induction fuel with
  | zero => intro idx; rfl
  | succ n ih =>
    intro idx
    rw [twitter_call, hth idx]
    simp [ih, List.replicate_succ]

/-- C8 (amended): a throttling response is not treated as a failure — the
request is retried after backing off.  The retry count is unbounded for
`DeviantartOAuthAPI._call` (under sustained 429 every unit of fuel issues
one more request and the loop never abandons) and for `TwitterAPI._call`
(same, though its retries are issued with the `method` string in the `root`
position and the default method, so the retried request's parameters differ from
the original's root); `SankakuAPI._call` instead has a 5-attempt budget: a
request throttled fewer than 5 times in a row is still retried (and a
subsequent success is returned), but after 5 consecutive throttles it
abandons the request and returns `None`. -/
theorem throttle_retry_amended :
    (∀ (resp : Nat → SkResp) (d n : Nat), n < 5 →
      (∀ i, i < n → resp i = SkResp.throttle) → resp n = SkResp.success d →
      sankaku_call resp 5 0 = (SkOut.value d, n + 1)) ∧
    (∀ resp : Nat → SkResp, (∀ i, i < 5 → resp i = SkResp.throttle) →
      sankaku_call resp 5 0 = (SkOut.nothing, 5)) ∧
    (∀ (resp : Nat → DevResp) (fuel idx delay : Nat),
      (∀ i, resp i = DevResp.err true false 0) →
      deviantart_call true resp fuel idx delay = (none, fuel)) ∧
    (∀ (resp : Nat → TwResp) (fuel : Nat) (selfRoot : String),
      (∀ i, resp i = TwResp.throttle) →
      twitter_call selfRoot resp (fuel + 1) none ("GET") 0
        = (selfRoot :: List.replicate fuel ("GET"), none)) := by
  refine ⟨?_, ?_, ?_, ?_⟩
  · intro resp d n hn hth hs
    exact sankaku_call_success_after_throttles resp d n 5 0
      (fun i hi => by simpa using hth i hi) (by simpa using hs) hn
  · intro resp hth
    rw [sankaku_call, hth 0 (by omega)]
    rw [sankaku_call, hth 1 (by omega)]
    rw [sankaku_call, hth 2 (by omega)]
    rw [sankaku_call, hth 3 (by omega)]
    rw [sankaku_call, hth 4 (by omega)]
    rfl
  · intro resp fuel idx delay hth
    exact deviantart_call_throttle_forever resp hth fuel idx delay
  · intro resp fuel selfRoot hth
    rw [twitter_call, hth 0]
    simp [twitter_call_throttle_forever selfRoot resp hth fuel 1]

theorem throttle_retry_amended_witness :
    sankaku_call (fun i => if i < 2 then SkResp.throttle else SkResp.success 7)
      5 0 = (SkOut.value 7, 2 + 1) :=
  throttle_retry_amended.1
    (fun i => if i < 2 then SkResp.throttle else SkResp.success 7) 7 2
    (by decide) (by decide) (by decide)

/-! ## Event streams (nozomi.py, webtoons.py, paheal.py)

The `Message` kinds produced by `items()` generators, tagged with the
grouping (post id) a Directory or Url event belongs to. -/

inductive Msg where
  | version (n : Nat)
  | directory (pid : Nat)
  | url (u : String) (pid : Nat)
  | queue (u : String)
deriving DecidableEq

/-- A post as `NozomiExtractor.items` sees it: the HTTP status of its
metadata fetch and its image urls. -/
structure NzPost where
  pid : Nat
  status : Nat
  images : List String

/-- `NozomiExtractor.items` (nozomi.py lines 27-69): `Message.Version` is
yielded first; each post whose fetch status is >= 400 is skipped; otherwise
`Message.Directory` is yielded for the post and then one `Message.Url` per
image. -/
def nozomi_items (posts : List NzPost) : List Msg :=
  Msg.version 1 ::
    (posts.map (fun p =>
      if 400 ≤ p.status then []
      else Msg.directory p.pid ::
        p.images.map (fun u => Msg.url u p.pid))).flatten

/-- `WebtoonsEpisodeExtractor.items` (webtoons.py lines 65-77): Version,
then the single Directory, then one Url per image (the single grouping is
tagged 0). -/
def webtoons_episode_items (imgs : List String) : List Msg :=
  Msg.version 1 :: Msg.directory 0 :: imgs.map (fun u => Msg.url u 0)

/-- `PahealExtractor.items` (paheal.py lines 23-35): no Version message;
for each post a Directory followed by exactly one Url. -/
def paheal_items (posts : List (Nat × String)) : List Msg :=
  (posts.map (fun p => [Msg.directory p.1, Msg.url p.2 p.1])).flatten

def noVersion (s : List Msg) : Bool :=
  s.all (fun m => match m with | Msg.version _ => false | _ => true)

/-- The property: if a Version record is emitted at all, it is emitted
exactly once and is the first record of the stream. -/
def versionFirstOnly : List Msg → Bool
  | [] => true
  | Msg.version _ :: t => noVersion t
  | m :: t => noVersion (m :: t)

/-- The property: every Url event is preceded by the Directory event of the
grouping it belongs to.  Scan the stream keeping the set of groupings whose
Directory has been seen. -/
def urlsCovered (seen : List Nat) : List Msg → Bool
  | [] => true
  | Msg.directory p :: t => urlsCovered (p :: seen) t
  | Msg.url _ p :: t => seen.contains p && urlsCovered seen t
  | _ :: t => urlsCovered seen t

lemma urlsCovered_urls (p : Nat) (us : List String) :
    ∀ (seen : List Nat) (rest : List Msg), seen.contains p = true →
      urlsCovered seen (us.map (fun u => Msg.url u p) ++ rest)
        = urlsCovered seen rest := by
  induction us with
  | nil => intro seen rest _; rfl
  | cons u us ih =>
    intro seen rest h
    simp only [List.map_cons, List.cons_append, urlsCovered, h,
      Bool.true_and]
    exact ih seen rest h

lemma urlsCovered_nozomi_blocks : ∀ (posts : List NzPost) (seen : List Nat),
    urlsCovered seen ((posts.map (fun p =>
      if 400 ≤ p.status then []
      else Msg.directory p.pid ::
        p.images.map (fun u => Msg.url u p.pid))).flatten) = true := by
  intro posts
  induction posts with
  | nil => intro seen; rfl
  | cons p ps ih =>
    intro seen
    simp only [List.map_cons, List.flatten_cons]
    by_cases h : 400 ≤ p.status
    · simp only [if_pos h, List.nil_append]
      exact ih seen
    · simp only [if_neg h, List.cons_append, urlsCovered]
      rw [urlsCovered_urls p.pid p.images (p.pid :: seen) _ (by simp)]
      exact ih (p.pid :: seen)

lemma noVersion_append (s t : List Msg) :
    noVersion (s ++ t) = (noVersion s && noVersion t) := by
  simp [noVersion, List.all_append]

lemma noVersion_nozomi_blocks : ∀ (posts : List NzPost),
    noVersion ((posts.map (fun p =>
      if 400 ≤ p.status then []
      else Msg.directory p.pid ::
        p.images.map (fun u => Msg.url u p.pid))).flatten) = true := by
  intro posts
  induction posts with
  | nil => rfl
  | cons p ps ih =>
    simp only [List.map_cons, List.flatten_cons, noVersion_append, ih,
      Bool.and_true]
    by_cases h : 400 ≤ p.status
    · simp [h, noVersion]
    · simp [h, noVersion, List.all_map]

lemma urlsCovered_paheal_blocks : ∀ (posts : List (Nat × String))
    (seen : List Nat),
    urlsCovered seen ((posts.map (fun p =>
      [Msg.directory p.1, Msg.url p.2 p.1])).flatten) = true := by
  intro posts
  induction posts with
  | nil => intro seen; rfl
  | cons p ps ih =>
    intro seen
    simp only [List.map_cons, List.flatten_cons, List.cons_append,
      urlsCovered]
    simp only [List.nil_append, List.contains_cons, BEq.refl, Bool.true_or,
      Bool.true_and]
    exact ih (p.1 :: seen)

lemma noVersion_paheal_blocks : ∀ (posts : List (Nat × String)),
    noVersion ((posts.map (fun p =>
      [Msg.directory p.1, Msg.url p.2 p.1])).flatten) = true := by
  intro posts
  induction posts with
  | nil => rfl
  | cons p ps ih =>
    simp only [List.map_cons, List.flatten_cons, noVersion_append, ih,
      Bool.and_true]
    rfl

/-- C9: in the event streams of `NozomiExtractor.items`,
`WebtoonsEpisodeExtractor.items` and `PahealExtractor.items`, a Version
record, when emitted at all, is emitted exactly once and first (nozomi and
webtoons emit it first, paheal emits none), and every Url event is preceded
by the Directory event of the grouping it belongs to. -/
theorem event_stream_order (posts : List NzPost) (imgs : List String)
    (pposts : List (Nat × String)) :
    versionFirstOnly (nozomi_items posts) = true ∧
    urlsCovered [] (nozomi_items posts) = true ∧
    versionFirstOnly (webtoons_episode_items imgs) = true ∧
    urlsCovered [] (webtoons_episode_items imgs) = true ∧
    versionFirstOnly (paheal_items pposts) = true ∧
    urlsCovered [] (paheal_items pposts) = true := by
  refine ⟨?_, ?_, ?_, ?_, ?_, ?_⟩
  · show noVersion _ = true
    exact noVersion_nozomi_blocks posts
  · show urlsCovered [] _ = true
    exact urlsCovered_nozomi_blocks posts []
  · show noVersion _ = true
    simp [noVersion, List.all_map]
  · show urlsCovered [0] (imgs.map (fun u => Msg.url u 0)) = true
    have := urlsCovered_urls 0 imgs [0] [] (by simp)
    simpa using this
  · cases pposts with
    | nil => rfl
    | cons p ps =>
      show noVersion _ = true
      exact noVersion_paheal_blocks (p :: ps)
  · exact urlsCovered_paheal_blocks pposts []

/-! ## Metadata merge (nozomi.py, paheal.py)

`NozomiExtractor.items` (nozomi.py line 56) and `PahealExtractor.items`
(paheal.py line 33) merge the handler-computed metadata into each per-item
dictionary with `post.update(data)`, where `post` holds the per-item fields
and `data = self.metadata()` / `self.get_metadata()` holds the
handler-computed fields.  `dict.update` makes the argument's bindings win:
`post[k] = data[k]` for every key of `data`.  A dictionary is modelled by
its lookup function. -/

def dict_update {K V : Type} (post data : K → Option V) : K → Option V :=
  fun k =>
    match data k with
    | some v => some v
    | none => post k

/-- Per-item fields of the C10 counterexample. -/
def c10post : String → Option String :=
  fun k => if k = "owner" then some ("per-item") else none

/-- Handler-computed fields of the C10 counterexample. -/
def c10data : String → Option String :=
  fun k => if k = "owner" then some ("handler") else none

/-- C10 counterexample: `post.update(data)` resolves a key present in both
the per-item fields and the handler-computed fields in favour of the
handler-computed one, not the per-item one as claimed: merging a per-item
value 'per-item' with a handler value 'handler' under the same key yields
'handler'. -/
theorem metadata_merge_counterexample :
    dict_update c10post c10data ("owner") = some ("handler") ∧
    dict_update c10post c10data ("owner") ≠ some ("per-item") := by
  exact ⟨rfl, by decide⟩

/-- C10 (amended): in `NozomiExtractor.items` and `PahealExtractor.items`
the merge `post.update(data)` gives the handler-computed field precedence on
key collision — per-item fields < handler-computed fields, the later-applied
source overriding the earlier — while keys absent from the handler metadata
keep their per-item value. -/
theorem metadata_merge_amended {K V : Type} (post data : K → Option V)
    (k : K) :
    ((data k).isSome → dict_update post data k = data k) ∧
    (data k = none → dict_update post data k = post k) := by
  constructor
  · intro h
    unfold dict_update
    cases hd : data k with
    | none => rw [hd] at h; simp at h
    | some v => rfl
  · intro h
    unfold dict_update
    rw [h]

theorem metadata_merge_amended_witness :
    dict_update c10post c10data ("owner") = c10data ("owner") :=
  (metadata_merge_amended c10post c10data ("owner")).1 (by decide)
